import Mathlib

/-!
Verification development for the HightJS routing / live-reload core.

The definitions below are shallow embeddings of the corresponding
TypeScript functions of the repository (router pattern matching,
middleware chain execution, hot-reload debouncing, the build-completion
waiter and the client fan-out channel).  Each definition's doc comment
names the source function it embeds.
-/

namespace HightJS

/-! ### Character helpers

JavaScript's `\w` character class (used by every segment-rewrite regex in
`router.ts`) is `[A-Za-z0-9_]`. -/

/-- JS `\w`: ASCII letters, digits and underscore. -/
def isWordChar (c : Char) : Bool :=
  c.isAlpha || c.isDigit || c = '_'

/-- Greedily split a leading `\w+` run from a character list
(the run may be empty; callers check non-emptiness). -/
def takeWordAux : List Char → List Char × List Char
  | [] => ([], [])
  | c :: rest =>
    if isWordChar c then
      let p := takeWordAux rest
      (c :: p.1, p.2)
    else ([], c :: rest)

/-- Strip an expected literal leading run, returning the remainder. -/
def dropLead : List Char → List Char → Option (List Char)
  | [], s => some s
  | _ :: _, [] => none
  | p :: ps, c :: cs => if p = c then dropLead ps cs else none

/-! ### The five segment-rewrite passes

`router.ts` turns a route pattern into a regex source by five (four for
the backend/WebSocket matchers) global `String.replace` passes.  Each
pass is a left-to-right, non-overlapping rewrite of
`pre ++ <word> ++ suf` into a replacement built from the word.  The
scanner below reproduces JS `replace(/re/g, ...)` for these fixed
shapes: find the leftmost occurrence, emit the replacement, continue
after it (the replacement is not rescanned). -/

/-- Try to read `pre ++ w ++ suf` (with `w` a non-empty `\w+` run) at the
head of `s`; return the word and the remainder after `suf`. -/
def tryForm (pre suf : List Char) (s : List Char) : Option (List Char × List Char) :=
  match dropLead pre s with
  | none => none
  | some s1 =>
    let p := takeWordAux s1
    if p.1.isEmpty then none
    else
      match dropLead suf p.2 with
      | none => none
      | some s3 => some (p.1, s3)

/-- One global rewrite pass (fuelled; each step consumes at least one
input character, so `fuel = length` always suffices). -/
def rewriteAux (pre suf : List Char) (repl : List Char → List Char) :
    Nat → List Char → List Char
  | 0, s => s
  | _ + 1, [] => []
  | fuel + 1, c :: rest =>
    match tryForm pre suf (c :: rest) with
    | some (w, after) => repl w ++ rewriteAux pre suf repl fuel after
    | none => c :: rewriteAux pre suf repl fuel rest

def rewritePass (pre suf : List Char) (repl : List Char → List Char) (s : List Char) :
    List Char :=
  rewriteAux pre suf repl s.length s

/-- Pass `[[...param]] → (?<param>.+)?` (optional catch-all). -/
def passOptCatch (s : List Char) : List Char :=
  rewritePass "[[...".data "]]".data (fun w => "(?<".data ++ w ++ ">.+)?".data) s

/-- Pass `[...param] → (?<param>.+)` (required catch-all). -/
def passReqCatch (s : List Char) : List Char :=
  rewritePass "[...".data "]".data (fun w => "(?<".data ++ w ++ ">.+)".data) s

/-- Pass `/[[param]] → (?:/(?<param>[^/]+))?` (optional segment together
with its leading slash; applied only by the page-route matcher). -/
def passOptSlashSeg (s : List Char) : List Char :=
  rewritePass "/[[".data "]]".data (fun w => "(?:/(?<".data ++ w ++ ">[^/]+))?".data) s

/-- Pass `[[param]] → (?<param>[^/]+)?` (optional segment). -/
def passOptSeg (s : List Char) : List Char :=
  rewritePass "[[".data "]]".data (fun w => "(?<".data ++ w ++ ">[^/]+)?".data) s

/-- Pass `[param] → (?<param>[^/]+)` (required segment). -/
def passReqSeg (s : List Char) : List Char :=
  rewritePass "[".data "]".data (fun w => "(?<".data ++ w ++ ">[^/]+)".data) s

/-- The `findMatchingRoute`: the five passes, in source order, wrapped in
`^...${}/?$`. -/
def pageRegexSrc (pattern : String) : List Char :=
  '^' :: (passReqSeg (passOptSeg (passOptSlashSeg (passReqCatch (passOptCatch pattern.data)))))
    ++ "/?$".data

/-- The `findMatchingBackendRoute`: only four passes (no optional-with-slash
pass), wrapped in `^...${}/?$`. -/
def backendRegexSrc (pattern : String) : List Char :=
  '^' :: (passReqSeg (passOptSeg (passReqCatch (passOptCatch pattern.data)))) ++ "/?$".data

/-- The `findMatchingWebSocketRoute`: same four passes as the backend matcher. -/
def wsRegexSrc (pattern : String) : List Char :=
  '^' :: (passReqSeg (passOptSeg (passReqCatch (passOptCatch pattern.data)))) ++ "/?$".data

/-! ### The regex dialect generated by the passes

The rewrite passes only emit literal characters plus the constructs
below, and the matchers wrap the result in `^ ... /?$`.  We parse the
generated source into tokens and run a backtracking matcher with the JS
semantics (greedy `+` and `?`, leftmost-longest backtracking, named
groups reported in definition order with `none` for a group that did not
participate — JS `undefined`). -/

/-- Character classes appearing in the generated regexes: `.` (any char
except a line terminator) and `[^/]`. -/
inductive CCls where
  | anyc
  | notSlash
deriving DecidableEq

def clsOk : CCls → Char → Bool
  | CCls.anyc, c => c ≠ '\n' && c ≠ '\r'
  | CCls.notSlash, c => c ≠ '/'

inductive RTok where
  /-- a literal character -/
  | lit (c : Char)
  /-- a literal character followed by `?` (only `/?` before `$` occurs) -/
  | litOpt (c : Char)
  /-- The `(?<name>cls+)` with `opt = true` when followed by `?` -/
  | grp (name : List Char) (cls : CCls) (opt : Bool)
  /-- The `(?:/(?<name>[^/]+))?` -/
  | grpSlashOpt (name : List Char)
deriving DecidableEq

/-- Recognize `(?<name>.+)`, `(?<name>[^/]+)`, each optionally followed
by `?`, at the head of `s`. -/
def recogNamedGrp (s : List Char) : Option (RTok × List Char) :=
  match dropLead "(?<".data s with
  | none => none
  | some s1 =>
    let p := takeWordAux s1
    if p.1.isEmpty then none
    else
      match dropLead ">.+)".data p.2 with
      | some s4 =>
        match s4 with
        | '?' :: s5 => some (RTok.grp p.1 CCls.anyc true, s5)
        | _ => some (RTok.grp p.1 CCls.anyc false, s4)
      | none =>
        match dropLead ">[^/]+)".data p.2 with
        | some s4 =>
          match s4 with
          | '?' :: s5 => some (RTok.grp p.1 CCls.notSlash true, s5)
          | _ => some (RTok.grp p.1 CCls.notSlash false, s4)
        | none => none

/-- Recognize `(?:/(?<name>[^/]+))?` at the head of `s`. -/
def recogNcGrp (s : List Char) : Option (RTok × List Char) :=
  match dropLead "(?:/(?<".data s with
  | none => none
  | some s1 =>
    let p := takeWordAux s1
    if p.1.isEmpty then none
    else
      match dropLead ">[^/]+))?".data p.2 with
      | none => none
      | some s3 => some (RTok.grpSlashOpt p.1, s3)

/-- Tokenizer for the generated regex sources (fuelled; every step
consumes at least one character).  `^` is the (always leading) start
anchor; a final `$` the end anchor; any other character not starting a
recognized group construct is a literal, with a trailing `?` making it
optional. -/
def parseToksAux : Nat → List Char → List RTok
  | 0, _ => []
  | _ + 1, [] => []
  | fuel + 1, s =>
    match recogNcGrp s with
    | some (tok, rest) => tok :: parseToksAux fuel rest
    | none =>
      match recogNamedGrp s with
      | some (tok, rest) => tok :: parseToksAux fuel rest
      | none =>
        match s with
        | [] => []
        | '^' :: rest => parseToksAux fuel rest
        | ['$'] => []
        | c :: '?' :: rest => RTok.litOpt c :: parseToksAux fuel rest
        | c :: rest => RTok.lit c :: parseToksAux fuel rest

def parseToks (s : List Char) : List RTok := parseToksAux s.length s

def tokNames : RTok → List (List Char)
  | RTok.grp n _ _ => [n]
  | RTok.grpSlashOpt n => [n]
  | _ => []

def groupNames (toks : List RTok) : List (List Char) :=
  (toks.map tokNames).flatten

/-- Duplicate named capture groups make JS `new RegExp` throw a
`SyntaxError`. -/
def hasDupNames : List (List Char) → Bool
  | [] => false
  | n :: rest => rest.contains n || hasDupNames rest

/-- The parameter environment produced by a match: every named group of
the regex, in definition order, with `none` for JS `undefined`. -/
abbrev Env := List (List Char × Option (List Char))

/-- Greedy attempt to let a named group consume `k, k-1, …, 1` characters
of `s` (all satisfying the class), running the continuation on the
remainder; mirrors the JS backtracking order for `cls+`. -/
def tryLens (cont : List Char → Option Env) (n : List Char) (cls : CCls)
    (s : List Char) : Nat → Option Env
  | 0 => none
  | k + 1 =>
    let pre := s.take (k + 1)
    match (if pre.all (clsOk cls) then
             (cont (s.drop (k + 1))).map (fun e => (n, some pre) :: e)
           else none) with
    | some e => some e
    | none => tryLens cont n cls s k

/-- Token-list matcher (anchored: the whole input must be consumed).
The fuel only decreases when a token is consumed, so
`fuel = toks.length + 1` always suffices. -/
def mtF : Nat → List RTok → List Char → Option Env
  | 0, _, _ => none
  | _ + 1, [], s => if s.isEmpty then some [] else none
  | f + 1, RTok.lit c :: rest, s =>
    match s with
    | [] => none
    | d :: s' => if c = d then mtF f rest s' else none
  | f + 1, RTok.litOpt c :: rest, s =>
    match s with
    | [] => mtF f rest []
    | d :: s' =>
      if c = d then
        match mtF f rest s' with
        | some e => some e
        | none => mtF f rest (d :: s')
      else mtF f rest (d :: s')
  | f + 1, RTok.grp n cls opt :: rest, s =>
    match tryLens (fun s' => mtF f rest s') n cls s s.length with
    | some e => some e
    | none =>
      if opt then (mtF f rest s).map (fun e => (n, none) :: e) else none
  | f + 1, RTok.grpSlashOpt n :: rest, s =>
    match (match s with
           | '/' :: s2 => tryLens (fun s' => mtF f rest s') n CCls.notSlash s2 s2.length
           | _ => none) with
    | some e => some e
    | none => (mtF f rest s).map (fun e => (n, none) :: e)

def matchToks (toks : List RTok) (s : List Char) : Option Env :=
  mtF (toks.length + 1) toks s

/-- The `new RegExp(src)`: tokenization plus JS's duplicate-named-group
rejection (`Except.error` models the thrown `SyntaxError`). -/
def compileRegex (src : List Char) : Except Unit (List RTok) :=
  let toks := parseToks src
  if hasDupNames (groupNames toks) then Except.error () else Except.ok toks

/-- Compile-and-match step of `findMatchingRoute` for one pattern. -/
def pageMatchOne (pattern path : String) : Except Unit (Option Env) :=
  match compileRegex (pageRegexSrc pattern) with
  | Except.error e => Except.error e
  | Except.ok toks => Except.ok (matchToks toks path.data)

/-- Compile-and-match step of `findMatchingBackendRoute` for one pattern. -/
def backendMatchOne (pattern path : String) : Except Unit (Option Env) :=
  match compileRegex (backendRegexSrc pattern) with
  | Except.error e => Except.error e
  | Except.ok toks => Except.ok (matchToks toks path.data)

/-- Compile-and-match step of `findMatchingWebSocketRoute` for one pattern. -/
def wsMatchOne (pattern path : String) : Except Unit (Option Env) :=
  match compileRegex (wsRegexSrc pattern) with
  | Except.error e => Except.error e
  | Except.ok toks => Except.ok (matchToks toks path.data)

/-! ### Route tables and lookup (`router.ts`) -/

/-- A loaded page route (`RouteConfig & { componentPath }`; the React
component itself is irrelevant to matching). -/
structure PageRoute where
  pattern : String
  componentPath : String
deriving DecidableEq

/-- A route module file as seen by `loadRoutes`: the default export's
`pattern` (empty when absent or falsy), whether it has a `component`,
and whether `require` throws. -/
structure RouteModule where
  pattern : String
  componentPath : String
  hasComponent : Bool
  requireThrows : Bool
deriving DecidableEq

/-- The `loadRoutes`: a module is added to the table iff requiring it
succeeds and its default export has a truthy `pattern` and a
`component`.  The pattern itself is not validated in any way. -/
def loadRoutes (mods : List RouteModule) : List PageRoute :=
  mods.filterMap fun m =>
    if !m.requireThrows && m.pattern != "" && m.hasComponent then
      some ⟨m.pattern, m.componentPath⟩
    else none

/-- The `findMatchingRoute`: first-match-wins loop over the page routes; a
falsy pattern is skipped; the per-route `new RegExp` can throw
(`Except.error`), which aborts the whole lookup. -/
def findMatchingRoute : List PageRoute → String → Except Unit (Option (PageRoute × Env))
  | [], _ => Except.ok none
  | r :: rest, path =>
    if r.pattern = "" then findMatchingRoute rest path
    else
      match pageMatchOne r.pattern path with
      | Except.error e => Except.error e
      | Except.ok (some env) => Except.ok (some (r, env))
      | Except.ok none => findMatchingRoute rest path

/-- ASCII upper-casing, JS `String.prototype.toUpperCase` on method
names. -/
def toUpperAscii (s : String) : String := String.mk (s.data.map Char.toUpper)

/-- A loaded API route (`BackendRouteConfig`): its pattern and the set of
HTTP verbs that have a (truthy) handler property. -/
structure BackendRoute where
  pattern : String
  methods : List String
deriving DecidableEq

/-- The `route[method.toUpperCase()]` truthiness. -/
def hasHandler (r : BackendRoute) (m : String) : Bool :=
  r.methods.contains (toUpperAscii m)

/-- The `findMatchingBackendRoute`: like the page lookup but a route is
skipped (`continue`) when its pattern is falsy **or** it has no handler
for the requested method; the method check happens before the regex is
built. -/
def findMatchingBackendRoute :
    List BackendRoute → String → String → Except Unit (Option (BackendRoute × Env))
  | [], _, _ => Except.ok none
  | r :: rest, path, m =>
    if r.pattern = "" ∨ hasHandler r m = false then
      findMatchingBackendRoute rest path m
    else
      match backendMatchOne r.pattern path with
      | Except.error e => Except.error e
      | Except.ok (some env) => Except.ok (some (r, env))
      | Except.ok none => findMatchingBackendRoute rest path m

/-- A WebSocket route (pattern plus handler reference; the handler is
irrelevant to matching). -/
structure WSRoute where
  pattern : String
deriving DecidableEq

/-- The `findMatchingWebSocketRoute`. -/
def findMatchingWebSocketRoute :
    List WSRoute → String → Except Unit (Option (WSRoute × Env))
  | [], _ => Except.ok none
  | r :: rest, path =>
    if r.pattern = "" then findMatchingWebSocketRoute rest path
    else
      match wsMatchOne r.pattern path with
      | Except.error e => Except.error e
      | Except.ok (some env) => Except.ok (some (r, env))
      | Except.ok none => findMatchingWebSocketRoute rest path

/-! ### Middleware chain executor (`executeMiddlewareChain` in the
server entry module)

A middleware receives `(request, params, next)`.  For the executor's
control flow only two behaviours matter: returning a response without
calling `next`, or calling `next` exactly once and returning a function
of its result (possibly unchanged).  Execution is instrumented with a
trace recording which middlewares (by position) and whether the terminal
handler ran. -/

inductive MW (Req Par Res : Type) where
  /-- returns `f request params` without calling `next` -/
  | halt (f : Req → Par → Res)
  /-- returns `g request params (← next())` -/
  | withNext (g : Req → Par → Res → Res)

inductive ChainEv where
  | mw (i : Nat)
  | terminal
deriving DecidableEq

/-- The `next` continuation: `currentIndex < middlewares.length` runs the
middleware at the current index (incrementing it), otherwise the final
handler runs.  `i` is the absolute index used only for the trace. -/
def chainNext {Req Par Res : Type} (final : Req → Par → Res) (req : Req) (par : Par) :
    Nat → List (MW Req Par Res) → Res × List ChainEv
  | _, [] => (final req par, [ChainEv.terminal])
  | i, MW.halt f :: _ => (f req par, [ChainEv.mw i])
  | i, MW.withNext g :: rest =>
    let r := chainNext final req par (i + 1) rest
    (g req par r.1, ChainEv.mw i :: r.2)

/-- The `executeMiddlewareChain`: a missing or empty middleware list runs the
final handler directly; otherwise the chain starts at index 0. -/
def executeMiddlewareChain {Req Par Res : Type} (mws : Option (List (MW Req Par Res)))
    (final : Req → Par → Res) (req : Req) (par : Par) : Res × List ChainEv :=
  match mws with
  | none => (final req par, [ChainEv.terminal])
  | some [] => (final req par, [ChainEv.terminal])
  | some l => chainNext final req par 0 l

/-! ### Directory-scoped middleware assembly (`loadBackendRoutes`)

`loadBackendRoutes` pre-loads each directory's middleware file into
`loadedMiddlewares` (a map keyed by the directory, storing only
non-empty lists), then gives a route module without its own
`middleware` property the list stored for the route's own directory. -/

/-- A discovered `middleware.ts` file: its directory and the middlewares
it exports (referenced by id). -/
structure MWFile where
  dir : String
  mws : List Nat
deriving DecidableEq

/-- A backend route module file: its directory and its own `middleware`
property (`none` when the module does not declare one; `some []` is an
explicit empty list). -/
structure BackendModule where
  dir : String
  declared : Option (List Nat)
deriving DecidableEq

/-- The `Map.set` on an association list keyed by directory. -/
def mapSet (m : List (String × List Nat)) (d : String) (v : List Nat) :
    List (String × List Nat) :=
  if (m.map Prod.fst).contains d then
    m.map (fun p => if p.1 = d then (d, v) else p)
  else m ++ [(d, v)]

def mapLookup (m : List (String × List Nat)) (d : String) : Option (List Nat) :=
  (m.find? (fun p => p.1 == d)).map Prod.snd

/-- The middleware pre-load loop of `loadBackendRoutes`: each middleware
file's exports are stored under its directory, but only when non-empty. -/
def buildMiddlewareMap (files : List MWFile) : List (String × List Nat) :=
  files.foldl (fun m f => if f.mws.isEmpty then m else mapSet m f.dir f.mws) []

/-- The route-assembly step: a route keeps a declared `middleware`
property untouched (`hasOwnProperty` check); otherwise it receives its
own directory's stored middlewares when they exist and are non-empty,
and no `middleware` property at all otherwise. -/
def routeMiddleware (mmap : List (String × List Nat)) (m : BackendModule) :
    Option (List Nat) :=
  match m.declared with
  | some l => some l
  | none =>
    match mapLookup mmap m.dir with
    | some l => if l.isEmpty then none else some l
    | none => none

/-! ### Build coordinator (`hotReload.ts`: the frontend branch of
`handleAnySrcChange`, and `onBuildComplete`)

Promises are identified by allocation order (`nextPromise`);
`buildCompleteResolve` holds the resolver of the most recently created
completion promise. -/

structure BuildState where
  isBuilding : Bool
  resolver : Option Nat
  nextPromise : Nat
deriving DecidableEq

inductive BuildAct where
  /-- The `frontendChangeCallback?.()` — the rebuild trigger -/
  | triggerRebuild
  /-- resolving completion promise `k` -/
  | resolvePromise (k : Nat)
  /-- The `notifyClients('build-complete' | 'build-error')` -/
  | notifyBuild (success : Bool)
deriving DecidableEq

/-- The synchronous prefix of the frontend branch of
`handleAnySrcChange` (lines 204–222): set `isBuilding`, create a fresh
completion promise whose resolver overwrites `buildCompleteResolve`,
and invoke the rebuild trigger.  There is no check of `isBuilding`. -/
def handleFrontendChangeStart (s : BuildState) : BuildState × List BuildAct :=
  ({ isBuilding := true, resolver := some s.nextPromise, nextPromise := s.nextPromise + 1 },
   [BuildAct.triggerRebuild])

/-- The `onBuildComplete`: resolve the registered resolver if any, clear it,
reset `isBuilding`, then notify the clients. -/
def onBuildComplete (s : BuildState) (success : Bool) : BuildState × List BuildAct :=
  match s.resolver with
  | some k =>
    ({ s with isBuilding := false, resolver := none },
     [BuildAct.resolvePromise k, BuildAct.notifyBuild success])
  | none => ({ s with isBuilding := false }, [BuildAct.notifyBuild success])

/-! ### Per-path debouncing (`HotReloadManager.debounce` and the
`change`/`add` watcher callbacks)

`debounceTimers` maps a path to its pending timer; an arriving event
clears and replaces the timer for its own path, and a firing timer
deletes its entry and invokes the callback with the stored arguments.
Time is explicit: `advanceTo` moves the clock and fires every due
timer. -/

inductive EventKind where
  | change
  | add
deriving DecidableEq

structure DebState where
  now : Nat
  /-- pending timers: (path, deadline, stored event), one per path -/
  pending : List (String × Nat × EventKind)
  /-- callback invocations so far, in order -/
  fired : List (String × EventKind)
deriving DecidableEq

/-- The debounced handler (wait = 100 in the source): clear any pending
timer for the path and schedule a new one storing this event. -/
def debArrive (wait : Nat) (s : DebState) (p : String) (k : EventKind) : DebState :=
  { s with pending := (p, s.now + wait, k) :: s.pending.filter (fun e => e.1 ≠ p) }

/-- Fire every timer whose deadline has been reached: the entry is
deleted and the callback invoked with the stored arguments. -/
def fireDue (s : DebState) : DebState :=
  { s with
    pending := s.pending.filter (fun e => ¬ e.2.1 ≤ s.now),
    fired := s.fired ++ (s.pending.filter (fun e => e.2.1 ≤ s.now)).map
      (fun e => (e.1, e.2.2)) }

/-- Move the clock to `t` (families of due timers fire). -/
def advanceTo (s : DebState) (t : Nat) : DebState := fireDue { s with now := t }

/-- Run a timed sequence of `change`/`add` events through the watcher:
advance the clock to each event's time, then debounce it. -/
def runDeb (wait : Nat) : DebState → List (Nat × String × EventKind) → DebState
  | s, [] => s
  | s, (t, p, k) :: rest => runDeb wait (debArrive wait (advanceTo s t) p k) rest

/-- Last element with default (the last event of a burst). -/
def lastEv (d : Nat × EventKind) : List (Nat × EventKind) → Nat × EventKind
  | [] => d
  | e :: rest => lastEv e rest

/-- Burst condition: each event arrives no earlier than the previous one
and strictly within `wait` of it. -/
def chainB (wait : Nat) : Nat → List (Nat × EventKind) → Bool
  | _, [] => true
  | tprev, (t, _) :: rest =>
    decide (tprev ≤ t) && decide (t < tprev + wait) && chainB wait t rest

/-- The entries of the debounce map belonging to one path. -/
def entriesFor (q : String) (l : List (String × Nat × EventKind)) :
    List (String × Nat × EventKind) :=
  l.filter (fun e => e.1 = q)

/-! ### Client fan-out channel (`hotReload.ts`: `setupWebSocketServer`,
`cleanupClient`, `notifyClients`, `stop`)

A client is a socket (identified by `wsId`) together with its heartbeat
`pingTimer`; `timers` is the set of live interval timers.  Socket
behaviour relevant to a broadcast is captured by `openB`
(`readyState === OPEN`) and `failsSend` (`send` throws). -/

structure Client where
  wsId : Nat
  openB : Bool
  failsSend : Bool
  timerId : Nat
deriving DecidableEq

structure ChannelState where
  clients : List Client
  timers : List Nat
  nextWs : Nat
  nextTimer : Nat
  shuttingDown : Bool
deriving DecidableEq

/-- The serialized broadcast payload `{type, data, timestamp}`. -/
structure Msg where
  type : String
  data : String
  timestamp : Nat
deriving DecidableEq

/-- The `cleanupClient`: when the socket is registered, clear its ping timer
and remove it from the map; otherwise do nothing. -/
def cleanupClient (s : ChannelState) (w : Nat) : ChannelState :=
  match s.clients.find? (fun c => c.wsId == w) with
  | some c =>
    { s with
      clients := s.clients.filter (fun c' => c'.wsId ≠ w),
      timers := s.timers.filter (fun t => t ≠ c.timerId) }
  | none => s

/-- The `clients.forEach` sweep of `notifyClients`: an open socket gets a
`send` attempt (a throwing send marks it dead); a non-open socket is
marked dead.  Returns the deliveries and the dead list, in sweep
order. -/
def sweepClients (message : Msg) : List Client → List (Nat × Msg) × List Client
  | [] => ([], [])
  | c :: rest =>
    let p := sweepClients message rest
    if c.openB then
      if c.failsSend then (p.1, c :: p.2) else ((c.wsId, message) :: p.1, p.2)
    else (p.1, c :: p.2)

/-- The `notifyClients`: no-op while shutting down or with no clients;
otherwise serialize once, sweep every client, and only after the sweep
remove the dead ones via `cleanupClient`. -/
def notifyClients (s : ChannelState) (type data : String) (ts : Nat) :
    ChannelState × List (Nat × Msg) :=
  if s.shuttingDown || s.clients.isEmpty then (s, [])
  else
    let message : Msg := ⟨type, data, ts⟩
    let p := sweepClients message s.clients
    (p.2.foldl (fun st c => cleanupClient st c.wsId) s, p.1)

/-- The `connection` handler of `setupWebSocketServer`: while shutting
down the socket is closed and never registered; otherwise a fresh ping
interval timer is created and the connection stored. -/
def acceptClient (s : ChannelState) (openB failsSend : Bool) : ChannelState :=
  if s.shuttingDown then { s with nextWs := s.nextWs + 1 }
  else
    { s with
      clients := s.clients ++ [⟨s.nextWs, openB, failsSend, s.nextTimer⟩],
      timers := s.timers ++ [s.nextTimer],
      nextWs := s.nextWs + 1,
      nextTimer := s.nextTimer + 1 }

/-- The `stop`: clear every client's ping timer and the client map (watchers
and debounce timers are outside this model). -/
def stopChannel (s : ChannelState) : ChannelState :=
  { s with
    shuttingDown := true,
    timers := s.timers.filter (fun t => !(s.clients.map Client.timerId).contains t),
    clients := [] }

/-- The operations that touch the client set. -/
inductive ChanOp where
  | accept (openB failsSend : Bool)
  | closeEvt (w : Nat)
  | errorEvt (w : Nat)
  | broadcast (type data : String) (ts : Nat)
  | stop
deriving DecidableEq

def applyOp (s : ChannelState) : ChanOp → ChannelState
  | ChanOp.accept o f => acceptClient s o f
  | ChanOp.closeEvt w => cleanupClient s w
  | ChanOp.errorEvt w => cleanupClient s w
  | ChanOp.broadcast ty d ts => (notifyClients s ty d ts).1
  | ChanOp.stop => stopChannel s

def runOps (s : ChannelState) (ops : List ChanOp) : ChannelState :=
  ops.foldl applyOp s

def initChannel : ChannelState := ⟨[], [], 0, 0, false⟩

/-- The channel's resource invariant: the live interval timers are
exactly the registered connections' ping timers, socket and timer ids
are pairwise distinct, and all are below the allocation counters. -/
def ChanInv (s : ChannelState) : Prop :=
  s.timers = s.clients.map Client.timerId
  ∧ (s.clients.map Client.wsId).Nodup
  ∧ (s.clients.map Client.timerId).Nodup
  ∧ ∀ c ∈ s.clients, c.wsId < s.nextWs ∧ c.timerId < s.nextTimer

/-! ## Theorems -/

/-- Claim C1.  The spec says `/docs/[[...slug]]` matches `/docs` with
`slug` unbound.  The compiled regex `^/docs/(?<slug>.+)?/?$` keeps the
slash before the optional group mandatory, so the code rejects `/docs`;
only `/docs/` (trailing slash kept) matches with `slug` unbound, while
`/docs/a/b` matches with `slug = "a/b"` as the spec says. -/
theorem optional_catchall_zero_components :
    findMatchingRoute [⟨"/docs/[[...slug]]", "docs.tsx"⟩] "/docs" = Except.ok none
    ∧ findMatchingRoute [⟨"/docs/[[...slug]]", "docs.tsx"⟩] "/docs/"
        = Except.ok (some (⟨"/docs/[[...slug]]", "docs.tsx"⟩, [("slug".data, none)]))
    ∧ findMatchingRoute [⟨"/docs/[[...slug]]", "docs.tsx"⟩] "/docs/a/b"
        = Except.ok (some (⟨"/docs/[[...slug]]", "docs.tsx"⟩,
            [("slug".data, some "a/b".data)])) :=
  ⟨rfl, rfl, rfl⟩

/-- Claim C3, counterexample.  A route whose pattern repeats a parameter
name is *not* excluded from the table (`loadRoutes` performs no pattern
validation), and the first request-time lookup that reaches it throws a
regex construction error instead of never being attempted. -/
theorem duplicate_param_route_loaded_and_throws :
    loadRoutes [⟨"/a/[id]/[id]", "a.tsx", true, false⟩] = [⟨"/a/[id]/[id]", "a.tsx"⟩]
    ∧ findMatchingRoute (loadRoutes [⟨"/a/[id]/[id]", "a.tsx", true, false⟩]) "/a/1/2"
        = Except.error () :=
  ⟨rfl, rfl⟩

/-- Claim C3, amended.  A route module with a duplicate-parameter pattern
is loaded into the route table unchanged (no compile error at
registration time), and any request-time lookup whose scan reaches that
route aborts with the regex construction error — the whole lookup
errors rather than skipping the route. -/
theorem duplicate_param_request_time_error
    (m : RouteModule) (rest : List PageRoute) (path : String)
    (hok : m.requireThrows = false) (hcomp : m.hasComponent = true)
    (hpat : m.pattern ≠ "")
    (hdup : compileRegex (pageRegexSrc m.pattern) = Except.error ()) :
    loadRoutes [m] = [⟨m.pattern, m.componentPath⟩]
    ∧ findMatchingRoute (⟨m.pattern, m.componentPath⟩ :: rest) path
        = Except.error () := by
  constructor
  · simp [loadRoutes, hok, hcomp, hpat]
  · simp [findMatchingRoute, hpat, pageMatchOne, hdup]

/-- Witness for `duplicate_param_request_time_error`. -/
theorem duplicate_param_request_time_error_witness :
    loadRoutes [⟨"/a/[id]/[id]", "a.tsx", true, false⟩] = [⟨"/a/[id]/[id]", "a.tsx"⟩]
    ∧ findMatchingRoute (⟨"/a/[id]/[id]", "a.tsx"⟩ :: [⟨"/b", "b.tsx"⟩]) "/b"
        = Except.error () :=
  duplicate_param_request_time_error ⟨"/a/[id]/[id]", "a.tsx", true, false⟩
    [⟨"/b", "b.tsx"⟩] "/b" rfl rfl (by decide) rfl

/-- Claim C4, counterexample.  The page matcher applies the
optional-segment-with-slash pass but the WebSocket (and backend) matcher
does not, so for pattern `/x/[[p]]` and path `/x` the page lookup
matches (with `p` unbound) while the WebSocket lookup does not. -/
theorem page_ws_matcher_disagree :
    findMatchingRoute [⟨"/x/[[p]]", "x.tsx"⟩] "/x"
      = Except.ok (some (⟨"/x/[[p]]", "x.tsx"⟩, [("p".data, none)]))
    ∧ findMatchingWebSocketRoute [⟨"/x/[[p]]"⟩] "/x" = Except.ok none :=
  ⟨rfl, rfl⟩

/-- Claim C4, amended.  The backend and WebSocket matchers apply the very
same four rewrite passes and agree on every pattern and path; the page
matcher additionally applies the optional-segment-with-slash pass, and
agrees with them whenever that pass leaves the pattern unchanged (in
particular for any pattern with no `/[[name]]` occurrence). -/
theorem api_ws_matchers_agree (pattern path : String)
    (hid : passOptSlashSeg (passReqCatch (passOptCatch pattern.data))
           = passReqCatch (passOptCatch pattern.data)) :
    backendMatchOne pattern path = wsMatchOne pattern path
    ∧ pageMatchOne pattern path = backendMatchOne pattern path := by
  refine ⟨rfl, ?_⟩
  unfold pageMatchOne backendMatchOne pageRegexSrc backendRegexSrc
  rw [hid]

/-- Witness for `api_ws_matchers_agree`. -/
theorem api_ws_matchers_agree_witness :
    backendMatchOne "/users/[id]" "/users/42" = wsMatchOne "/users/[id]" "/users/42"
    ∧ pageMatchOne "/users/[id]" "/users/42"
        = backendMatchOne "/users/[id]" "/users/42" :=
  api_ws_matchers_agree "/users/[id]" "/users/42" rfl

/-- Claim C5.  An API route whose pattern matches the path but which has no
handler for the requested method is skipped exactly as if it were not
there: the lookup continues with the remaining routes in registration
order (no 405-style result exists in the lookup's codomain), so a later
route with the right verb can still match. -/
theorem route_without_method_handler_skipped
    (r : BackendRoute) (rest : List BackendRoute) (path m : String) (env : Env)
    (_hmatch : backendMatchOne r.pattern path = Except.ok (some env))
    (hnoverb : hasHandler r m = false) :
    findMatchingBackendRoute (r :: rest) path m
      = findMatchingBackendRoute rest path m := by
  simp [findMatchingBackendRoute, hnoverb]

/-- Witness for `route_without_method_handler_skipped`: the first route
matches `/api/users/42` but only handles `POST`; a `GET` lookup skips it
and the second route (same pattern shape, right verb) matches. -/
theorem route_without_method_handler_skipped_witness :
    backendMatchOne "/api/users/[id]" "/api/users/42"
      = Except.ok (some [("id".data, some "42".data)])
    ∧ hasHandler ⟨"/api/users/[id]", ["POST"]⟩ "GET" = false
    ∧ findMatchingBackendRoute
        [⟨"/api/users/[id]", ["POST"]⟩, ⟨"/api/users/[id]", ["GET"]⟩]
        "/api/users/42" "GET"
        = findMatchingBackendRoute [⟨"/api/users/[id]", ["GET"]⟩] "/api/users/42" "GET"
    ∧ findMatchingBackendRoute [⟨"/api/users/[id]", ["GET"]⟩] "/api/users/42" "GET"
        = Except.ok (some (⟨"/api/users/[id]", ["GET"]⟩, [("id".data, some "42".data)])) :=
  ⟨rfl, rfl,
   route_without_method_handler_skipped ⟨"/api/users/[id]", ["POST"]⟩
     [⟨"/api/users/[id]", ["GET"]⟩] "/api/users/42" "GET"
     [("id".data, some "42".data)] rfl rfl,
   rfl⟩

/-- Claim C2, counterexample.  `handleAnySrcChange` never consults
`isBuilding`: after a first frontend change (which leaves
`isBuilding = true`), a second frontend change replaces the registered
resolver with a freshly created promise's resolver and invokes the
rebuild trigger again — it does not reuse the pending completion
signal. -/
theorem second_frontend_change_replaces_waiter :
    (handleFrontendChangeStart ⟨false, none, 0⟩).1.isBuilding = true
    ∧ (handleFrontendChangeStart (handleFrontendChangeStart ⟨false, none, 0⟩).1).1.resolver
        ≠ (handleFrontendChangeStart ⟨false, none, 0⟩).1.resolver
    ∧ (handleFrontendChangeStart (handleFrontendChangeStart ⟨false, none, 0⟩).1).2
        = [BuildAct.triggerRebuild] :=
  ⟨rfl, by decide, rfl⟩

/-- Claim C2, amended.  Every frontend-classified change unconditionally
sets `isBuilding`, registers the resolver of a *fresh* completion
promise (overwriting any pending one, whose waiter can then only time
out) and issues the rebuild trigger once per change; the resolver slot
holds at most one resolver, and `onBuildComplete` resolves exactly the
currently registered resolver, clears it and resets `isBuilding`. -/
theorem frontend_change_build_waiter (s : BuildState) (b : Bool) (k : Nat)
    (h : s.resolver = some k) :
    (handleFrontendChangeStart s).1.isBuilding = true
    ∧ (handleFrontendChangeStart s).1.resolver = some s.nextPromise
    ∧ (handleFrontendChangeStart s).2 = [BuildAct.triggerRebuild]
    ∧ onBuildComplete s b
        = ({ s with isBuilding := false, resolver := none },
           [BuildAct.resolvePromise k, BuildAct.notifyBuild b]) := by
  refine ⟨rfl, rfl, rfl, ?_⟩
  simp [onBuildComplete, h]

/-- Witness for `frontend_change_build_waiter`. -/
theorem frontend_change_build_waiter_witness :
    (handleFrontendChangeStart ⟨true, some 0, 1⟩).1.isBuilding = true
    ∧ (handleFrontendChangeStart ⟨true, some 0, 1⟩).1.resolver = some 1
    ∧ (handleFrontendChangeStart ⟨true, some 0, 1⟩).2 = [BuildAct.triggerRebuild]
    ∧ onBuildComplete ⟨true, some 0, 1⟩ true
        = (⟨false, none, 1⟩, [BuildAct.resolvePromise 0, BuildAct.notifyBuild true]) :=
  frontend_change_build_waiter ⟨true, some 0, 1⟩ true 0 rfl

/-- The `executeMiddlewareChain` on a non-empty list starts the chain at
index 0. -/
theorem executeMiddlewareChain_cons {Req Par Res : Type} (mw : MW Req Par Res)
    (l : List (MW Req Par Res)) (final : Req → Par → Res) (req : Req) (par : Par) :
    executeMiddlewareChain (some (mw :: l)) final req par
      = chainNext final req par 0 (mw :: l) := rfl

/-- The chain on `withNext` middlewares followed by a halting middleware:
the halting middleware's response propagates back through the earlier
wrappers and execution stops there. -/
theorem chainNext_halt_after_wraps {Req Par Res : Type}
    (final : Req → Par → Res) (req : Req) (par : Par)
    (gs : List (Req → Par → Res → Res)) (f : Req → Par → Res)
    (post : List (MW Req Par Res)) :
    ∀ i, chainNext final req par i (gs.map MW.withNext ++ MW.halt f :: post)
      = (gs.foldr (fun g acc => g req par acc) (f req par),
         (List.range' i (gs.length + 1)).map ChainEv.mw) := by
  induction gs with
  | nil => intro i; simp [chainNext, List.range']
  | cons g gs ih => intro i; simp [chainNext, ih (i + 1), List.range']

/-- Folding identity wrappers is the identity. -/
theorem foldr_id_wraps {Req Par Res : Type} (req : Req) (par : Par) (b : Res) :
    ∀ n, (List.replicate n (fun (_ : Req) (_ : Par) (r : Res) => r)).foldr
      (fun g acc => g req par acc) b = b := by
  intro n
  induction n with
  | zero => rfl
  | succ n ih => simp [List.replicate, ih]

/-- Claim C6.  The middleware chain executor: an absent or empty list runs
the terminal handler directly; middlewares run strictly in list order
via the `next` continuation; when the middleware at position `i`
returns without calling `next`, no later middleware and not the
terminal handler executes, and the executor's result is that
middleware's response as propagated through the earlier middlewares
(exactly that response when they pass it through unchanged). -/
theorem middleware_chain_short_circuit {Req Par Res : Type}
    (gs : List (Req → Par → Res → Res)) (f : Req → Par → Res)
    (post : List (MW Req Par Res)) (final : Req → Par → Res)
    (req : Req) (par : Par) (n : Nat) :
    executeMiddlewareChain none final req par = (final req par, [ChainEv.terminal])
    ∧ executeMiddlewareChain (some []) final req par = (final req par, [ChainEv.terminal])
    ∧ executeMiddlewareChain (some (gs.map MW.withNext ++ MW.halt f :: post)) final req par
        = (gs.foldr (fun g acc => g req par acc) (f req par),
           (List.range (gs.length + 1)).map ChainEv.mw)
    ∧ executeMiddlewareChain
        (some (List.replicate n (MW.withNext (fun (_ : Req) (_ : Par) (r : Res) => r))
               ++ MW.halt f :: post)) final req par
        = (f req par, (List.range (n + 1)).map ChainEv.mw) := by
  have hmain : ∀ gs' : List (Req → Par → Res → Res),
      executeMiddlewareChain (some (gs'.map MW.withNext ++ MW.halt f :: post)) final req par
        = (gs'.foldr (fun g acc => g req par acc) (f req par),
           (List.range (gs'.length + 1)).map ChainEv.mw) := by
    intro gs'
    rw [List.range_eq_range']
    cases gs' with
    | nil =>
      have h := chainNext_halt_after_wraps final req par [] f post 0
      simp only [List.map_nil, List.nil_append] at h ⊢
      rw [executeMiddlewareChain_cons, h]
    | cons g gs'' =>
      have h := chainNext_halt_after_wraps final req par (g :: gs'') f post 0
      simp only [List.map_cons, List.cons_append] at h ⊢
      rw [executeMiddlewareChain_cons, h]
  refine ⟨rfl, rfl, hmain gs, ?_⟩
  have hrepl := hmain (List.replicate n (fun (_ : Req) (_ : Par) (r : Res) => r))
  rw [List.map_replicate] at hrepl
  rw [hrepl, foldr_id_wraps req par (f req par) n, List.length_replicate]

/-- Claim C7.  Middleware is directory-scoped: a route module without its
own `middleware` property receives exactly its own directory's
middleware-file exports (when present and non-empty) and nothing
otherwise; its assembled middleware never depends on middleware files
of other (parent or child) directories; and a module that declares
`middleware` — the empty list included — keeps the declared list
unchanged. -/
theorem directory_scoped_middleware
    (files files' : List MWFile) (m : BackendModule)
    (hagree : mapLookup (buildMiddlewareMap files) m.dir
              = mapLookup (buildMiddlewareMap files') m.dir) :
    (∀ ld, m.declared = some ld →
       routeMiddleware (buildMiddlewareMap files) m = some ld)
    ∧ (∀ lf, m.declared = none →
         mapLookup (buildMiddlewareMap files) m.dir = some lf → lf ≠ [] →
         routeMiddleware (buildMiddlewareMap files) m = some lf)
    ∧ (m.declared = none → mapLookup (buildMiddlewareMap files) m.dir = none →
         routeMiddleware (buildMiddlewareMap files) m = none)
    ∧ routeMiddleware (buildMiddlewareMap files) m
        = routeMiddleware (buildMiddlewareMap files') m := by
  refine ⟨?_, ?_, ?_, ?_⟩
  · intro ld h
    simp [routeMiddleware, h]
  · intro lf h hl hne
    cases lf with
    | nil => exact absurd rfl hne
    | cons a l => simp [routeMiddleware, h, hl]
  · intro h hl
    simp [routeMiddleware, h, hl]
  · unfold routeMiddleware
    cases m.declared with
    | some l => rfl
    | none => rw [hagree]

/-- Witness for `directory_scoped_middleware`: `/api/admin`'s route gets
`/api/admin/middleware.ts`'s exports, and removing the parent
directory's middleware file changes nothing for it. -/
theorem directory_scoped_middleware_witness :
    routeMiddleware (buildMiddlewareMap [⟨"/api", [1]⟩, ⟨"/api/admin", [2]⟩])
        ⟨"/api/admin", none⟩ = some [2]
    ∧ routeMiddleware (buildMiddlewareMap [⟨"/api", [1]⟩, ⟨"/api/admin", [2]⟩])
        ⟨"/api/admin", none⟩
      = routeMiddleware (buildMiddlewareMap [⟨"/api/admin", [2]⟩])
        ⟨"/api/admin", none⟩ :=
  ⟨(directory_scoped_middleware [⟨"/api", [1]⟩, ⟨"/api/admin", [2]⟩]
      [⟨"/api/admin", [2]⟩] ⟨"/api/admin", none⟩ rfl).2.1 [2] rfl rfl (by decide),
   (directory_scoped_middleware [⟨"/api", [1]⟩, ⟨"/api/admin", [2]⟩]
      [⟨"/api/admin", [2]⟩] ⟨"/api/admin", none⟩ rfl).2.2.2⟩

/-- Within a burst, every arrival before the pending deadline just
replaces the single pending entry for the path; the invariant state
after each event carries the latest event and its deadline. -/
theorem runDeb_burst_aux (wait : Nat) (p : String) :
    ∀ (rest : List (Nat × EventKind)) (t1 : Nat) (k1 : EventKind)
      (F : List (String × EventKind)),
      chainB wait t1 rest = true →
      runDeb wait ⟨t1, [(p, t1 + wait, k1)], F⟩ (rest.map (fun e => (e.1, p, e.2)))
        = ⟨(lastEv (t1, k1) rest).1,
           [(p, (lastEv (t1, k1) rest).1 + wait, (lastEv (t1, k1) rest).2)], F⟩ := by
  intro rest
  induction rest with
  | nil => intro t1 k1 F _; rfl
  | cons e rest ih =>
    intro t1 k1 F hch
    obtain ⟨t2, k2⟩ := e
    simp only [chainB, Bool.and_eq_true, decide_eq_true_eq] at hch
    obtain ⟨⟨hle12, hlt⟩, hch2⟩ := hch
    have hnd : ¬ t1 + wait ≤ t2 := by omega
    have hstep : debArrive wait (advanceTo ⟨t1, [(p, t1 + wait, k1)], F⟩ t2) p k2
        = ⟨t2, [(p, t2 + wait, k2)], F⟩ := by
      simp [advanceTo, fireDue, debArrive, hnd]
    simp only [List.map_cons, runDeb, hstep, lastEv]
    exact ih t2 k2 F hch2

/-- An arrival for path `p` leaves the pending entries of every other
path untouched. -/
theorem entriesFor_filter_ne (p q : String) (hqp : q ≠ p) :
    ∀ l : List (String × Nat × EventKind),
      entriesFor q (l.filter (fun e => e.1 ≠ p)) = entriesFor q l := by
  intro l
  induction l with
  | nil => rfl
  | cons x l ih =>
    by_cases hx : x.1 = p
    · have h1 : (x :: l).filter (fun e => e.1 ≠ p) = l.filter (fun e => e.1 ≠ p) := by
        simp [List.filter_cons, hx]
      have hxq : ¬ x.1 = q := fun h => hqp (h.symm.trans hx)
      have h2 : entriesFor q (x :: l) = entriesFor q l := by
        simp [entriesFor, List.filter_cons, hxq]
      rw [h1, h2, ih]
    · have h1 : (x :: l).filter (fun e => e.1 ≠ p) = x :: l.filter (fun e => e.1 ≠ p) := by
        simp [List.filter_cons, hx]
      rw [h1]
      by_cases hxq : x.1 = q
      · have h2 : ∀ l' : List (String × Nat × EventKind),
            entriesFor q (x :: l') = x :: entriesFor q l' := by
          intro l'; simp [entriesFor, List.filter_cons, hxq]
        rw [h2, h2, ih]
      · have h2 : ∀ l' : List (String × Nat × EventKind),
            entriesFor q (x :: l') = entriesFor q l' := by
          intro l'; simp [entriesFor, List.filter_cons, hxq]
        rw [h2, h2, ih]

/-- Claim C8.  Per-path debouncing: a burst of `N ≥ 1` change/add events
for one path, each arriving within the debounce window of the previous
one, produces exactly one callback invocation for that path, carrying
the last event of the burst (fired once the window after the last event
has elapsed); and each arrival cancels and replaces the pending timer of
its own path only — entries for every other path are untouched. -/
theorem debounce_per_path (wait : Nat) (p : String) (t1 : Nat) (k1 : EventKind)
    (rest : List (Nat × EventKind)) (T : Nat)
    (hchain : chainB wait t1 rest = true)
    (hT : (lastEv (t1, k1) rest).1 + wait ≤ T) :
    (advanceTo (runDeb wait ⟨0, [], []⟩
        (((t1, k1) :: rest).map (fun e => (e.1, p, e.2)))) T).fired
      = [(p, (lastEv (t1, k1) rest).2)]
    ∧ (advanceTo (runDeb wait ⟨0, [], []⟩
        (((t1, k1) :: rest).map (fun e => (e.1, p, e.2)))) T).pending = []
    ∧ (∀ (s : DebState) (q : String) (k : EventKind), q ≠ p →
        entriesFor q (debArrive wait s p k).pending = entriesFor q s.pending) := by
  have hfirst : debArrive wait (advanceTo ⟨0, [], []⟩ t1) p k1
      = ⟨t1, [(p, t1 + wait, k1)], []⟩ := by
    simp [advanceTo, fireDue, debArrive]
  have hrun : runDeb wait ⟨0, [], []⟩ (((t1, k1) :: rest).map (fun e => (e.1, p, e.2)))
      = ⟨(lastEv (t1, k1) rest).1,
         [(p, (lastEv (t1, k1) rest).1 + wait, (lastEv (t1, k1) rest).2)], []⟩ := by
    simp only [List.map_cons, runDeb, hfirst]
    exact runDeb_burst_aux wait p rest t1 k1 [] hchain
  refine ⟨?_, ?_, ?_⟩
  · rw [hrun]
    simp [advanceTo, fireDue, hT]
  · rw [hrun]
    simp [advanceTo, fireDue, hT]
  · intro s q k hqp
    have hpq : ¬ p = q := fun h => hqp h.symm
    have h1 : entriesFor q (debArrive wait s p k).pending
        = entriesFor q (s.pending.filter (fun e => e.1 ≠ p)) := by
      simp [debArrive, entriesFor, List.filter_cons, hpq]
    rw [h1, entriesFor_filter_ne p q hqp s.pending]

/-- Witness for `debounce_per_path`: three rapid events on one path
(change at 0 ms, add at 50 ms, change at 120 ms, window 100 ms) produce
exactly one callback, carrying the last event. -/
theorem debounce_per_path_witness :
    (advanceTo (runDeb 100 ⟨0, [], []⟩
        (((0, EventKind.change) :: [(50, EventKind.add), (120, EventKind.change)]).map
          (fun e => (e.1, "src/web/routes/a.tsx", e.2)))) 300).fired
      = [("src/web/routes/a.tsx", EventKind.change)]
    ∧ (advanceTo (runDeb 100 ⟨0, [], []⟩
        (((0, EventKind.change) :: [(50, EventKind.add), (120, EventKind.change)]).map
          (fun e => (e.1, "src/web/routes/a.tsx", e.2)))) 300).pending = []
    ∧ entriesFor "other"
        (debArrive 100 ⟨0, [("other", 7, EventKind.add)], []⟩
          "src/web/routes/a.tsx" EventKind.change).pending
      = entriesFor "other" [("other", 7, EventKind.add)] := by
  have h := debounce_per_path 100 "src/web/routes/a.tsx" 0 EventKind.change
    [(50, EventKind.add), (120, EventKind.change)] 300 (by decide) (by decide)
  exact ⟨h.1, h.2.1, h.2.2 ⟨0, [("other", 7, EventKind.add)], []⟩ "other"
    EventKind.change (by decide)⟩

/-- The sweep delivers to exactly the open, non-throwing clients (in
order, all with the same serialized message) and marks exactly the
others dead. -/
theorem sweepClients_spec (message : Msg) :
    ∀ l : List Client,
      (sweepClients message l).1
        = (l.filter (fun c => c.openB && !c.failsSend)).map (fun c => (c.wsId, message))
      ∧ (sweepClients message l).2 = l.filter (fun c => !c.openB || c.failsSend) := by
  intro l
  induction l with
  | nil => exact ⟨rfl, rfl⟩
  | cons c l ih =>
    cases ho : c.openB <;> cases hfa : c.failsSend <;>
      simp [sweepClients, List.filter_cons, ho, hfa, ih.1, ih.2]

/-- The `cleanupClient` always leaves exactly the clients with a different
socket id (whether or not the socket was registered). -/
theorem cleanupClient_clients (s : ChannelState) (w : Nat) :
    (cleanupClient s w).clients = s.clients.filter (fun c => c.wsId ≠ w) := by
  unfold cleanupClient
  cases hf : s.clients.find? (fun c => c.wsId == w) with
  | some c => rfl
  | none =>
    have hall : ∀ c ∈ s.clients, ¬ c.wsId = w := by
      intro c hc
      have := List.find?_eq_none.mp hf c hc
      simpa using this
    have : s.clients.filter (fun c => c.wsId ≠ w) = s.clients := by
      rw [List.filter_eq_self]
      intro c hc
      simpa using hall c hc
    rw [this]

/-- Folding `cleanupClient` over a list of clients removes exactly the
clients carrying one of the listed socket ids. -/
theorem foldl_cleanup_clients :
    ∀ (d : List Client) (s : ChannelState),
      ((d.foldl (fun st c => cleanupClient st c.wsId) s).clients
        = s.clients.filter (fun c => d.all (fun x => c.wsId ≠ x.wsId))) := by
  intro d
  induction d with
  | nil =>
    intro s
    simp
  | cons x d ih =>
    intro s
    rw [List.foldl_cons, ih, cleanupClient_clients, List.filter_filter]
    refine List.filter_congr ?_
    intro c _
    rw [List.all_cons]
    exact Bool.and_comm _ _

/-- Claim C9.  A broadcast serializes `{type, data, timestamp}` once and
attempts delivery to every open connection even when some sends throw:
exactly the open non-throwing connections receive the (single, shared)
message, and exactly the throwing or non-open connections are removed —
after the sweep, never during it. -/
theorem broadcast_resilience (s : ChannelState) (ty d : String) (ts : Nat)
    (hsd : s.shuttingDown = false)
    (hkeys : (s.clients.map Client.wsId).Nodup) :
    (notifyClients s ty d ts).2
      = (s.clients.filter (fun c => c.openB && !c.failsSend)).map
          (fun c => (c.wsId, (⟨ty, d, ts⟩ : Msg)))
    ∧ (notifyClients s ty d ts).1.clients
      = s.clients.filter (fun c => c.openB && !c.failsSend) := by
  by_cases hemp : s.clients.isEmpty
  · have hnil : s.clients = [] := List.isEmpty_iff.mp hemp
    constructor
    · rw [show (notifyClients s ty d ts).2 = [] by simp [notifyClients, hemp], hnil]
      rfl
    · rw [show (notifyClients s ty d ts).1 = s by simp [notifyClients, hemp], hnil]
      rfl
  · have hguard : (s.shuttingDown || s.clients.isEmpty) = false := by
      rw [hsd, Bool.false_or, Bool.eq_false_iff]
      exact hemp
    have hsw := sweepClients_spec ⟨ty, d, ts⟩ s.clients
    have hdeadgood : s.clients.filter
        (fun c => (s.clients.filter (fun x => !x.openB || x.failsSend)).all
          (fun x => c.wsId ≠ x.wsId))
        = s.clients.filter (fun c => c.openB && !c.failsSend) := by
      refine List.filter_congr ?_
      intro c hc
      by_cases hgood : (c.openB && !c.failsSend) = true
      · rw [hgood]
        rw [List.all_eq_true]
        intro x hx
        have hxmem := (List.mem_filter.mp hx).1
        have hxbad := (List.mem_filter.mp hx).2
        have hne : c ≠ x := by
          intro he
          rw [← he] at hxbad
          cases ho : c.openB <;> cases hfa : c.failsSend <;>
            simp [ho, hfa] at hgood hxbad
        have hnid : c.wsId ≠ x.wsId := by
          intro hid
          exact hne (List.inj_on_of_nodup_map hkeys hc hxmem hid)
        simpa using hnid
      · have hbad : (!c.openB || c.failsSend) = true := by
          cases ho : c.openB <;> cases hfa : c.failsSend <;>
            simp [ho, hfa] at hgood ⊢
        have hcdead : c ∈ s.clients.filter (fun x => !x.openB || x.failsSend) :=
          List.mem_filter.mpr ⟨hc, hbad⟩
        rw [Bool.eq_false_iff.mpr hgood]
        rw [Bool.eq_false_iff]
        intro hall
        rw [List.all_eq_true] at hall
        have := hall c hcdead
        simp at this
    constructor
    · rw [show (notifyClients s ty d ts).2 = (sweepClients ⟨ty, d, ts⟩ s.clients).1 by
        simp [notifyClients, hguard]]
      rw [hsw.1]
    · rw [show (notifyClients s ty d ts).1
          = (sweepClients ⟨ty, d, ts⟩ s.clients).2.foldl
              (fun st c => cleanupClient st c.wsId) s by
        simp [notifyClients, hguard]]
      rw [hsw.2, foldl_cleanup_clients, hdeadgood]

/-- Witness for `broadcast_resilience` — the spec's own example: five
live connections, two of which throw on send; the other three receive
the message and exactly the two failing ones are removed. -/
theorem broadcast_resilience_witness :
    (notifyClients ⟨[⟨0, true, false, 10⟩, ⟨1, true, true, 11⟩, ⟨2, true, false, 12⟩,
        ⟨3, true, true, 13⟩, ⟨4, true, false, 14⟩], [10, 11, 12, 13, 14], 5, 15, false⟩
      "frontend-reload" "f.tsx" 7).2
      = [(0, ⟨"frontend-reload", "f.tsx", 7⟩), (2, ⟨"frontend-reload", "f.tsx", 7⟩),
         (4, ⟨"frontend-reload", "f.tsx", 7⟩)]
    ∧ (notifyClients ⟨[⟨0, true, false, 10⟩, ⟨1, true, true, 11⟩, ⟨2, true, false, 12⟩,
        ⟨3, true, true, 13⟩, ⟨4, true, false, 14⟩], [10, 11, 12, 13, 14], 5, 15, false⟩
      "frontend-reload" "f.tsx" 7).1.clients
      = [⟨0, true, false, 10⟩, ⟨2, true, false, 12⟩, ⟨4, true, false, 14⟩] := by
  have h := broadcast_resilience
    ⟨[⟨0, true, false, 10⟩, ⟨1, true, true, 11⟩, ⟨2, true, false, 12⟩,
      ⟨3, true, true, 13⟩, ⟨4, true, false, 14⟩], [10, 11, 12, 13, 14], 5, 15, false⟩
    "frontend-reload" "f.tsx" 7 rfl (by decide)
  exact ⟨h.1.trans (by decide), h.2.trans (by decide)⟩

/-- Filtering an image list by `≠ v` agrees with mapping a filtered list,
whenever the two predicates agree on every member. -/
theorem map_filter_equiv (f : Client → Nat) (pb : Client → Bool) (v : Nat) :
    ∀ l : List Client, (∀ x ∈ l, decide (f x ≠ v) = pb x) →
      (l.map f).filter (fun t => t ≠ v) = (l.filter pb).map f := by
  intro l
  induction l with
  | nil => intro _; rfl
  | cons x l ih =>
    intro h
    have hx := h x (List.mem_cons_self x l)
    have htail := fun y hy => h y (List.mem_cons_of_mem x hy)
    cases hpx : pb x with
    | false =>
      have hdx : decide (f x ≠ v) = false := hx.trans hpx
      rw [List.map_cons, List.filter_cons, List.filter_cons, hdx, hpx]
      simp only [Bool.false_eq_true, if_false]
      exact ih htail
    | true =>
      have hdx : decide (f x ≠ v) = true := hx.trans hpx
      rw [List.map_cons, List.filter_cons, List.filter_cons, hdx, hpx]
      simp only [if_true]
      rw [List.map_cons, ih htail]

/-- The `cleanupClient` of an unregistered socket is a no-op. -/
theorem cleanupClient_not_found (t : ChannelState) (w : Nat)
    (h : t.clients.find? (fun c => c.wsId == w) = none) : cleanupClient t w = t := by
  unfold cleanupClient; rw [h]

theorem cleanup_preserves_inv (s : ChannelState) (w : Nat) (h : ChanInv s) :
    ChanInv (cleanupClient s w) := by
  obtain ⟨ht, hk, htn, hb⟩ := h
  cases hf : s.clients.find? (fun c => c.wsId == w) with
  | none =>
    rw [cleanupClient_not_found s w hf]
    exact ⟨ht, hk, htn, hb⟩
  | some c =>
    have hcw : c.wsId = w := by
      have := List.find?_some hf
      simpa using this
    have hcmem : c ∈ s.clients := List.mem_of_find?_eq_some hf
    have hclean : cleanupClient s w
        = { s with clients := s.clients.filter (fun c' => c'.wsId ≠ w),
                   timers := s.timers.filter (fun t => t ≠ c.timerId) } := by
      unfold cleanupClient; rw [hf]
    rw [hclean]
    refine ⟨?_, ?_, ?_, ?_⟩
    · show s.timers.filter (fun t => t ≠ c.timerId)
        = (s.clients.filter (fun c' => c'.wsId ≠ w)).map Client.timerId
      rw [ht]
      apply map_filter_equiv
      intro x hx
      rw [decide_eq_decide]
      constructor
      · intro hne hxw
        exact hne (congrArg Client.timerId
          (List.inj_on_of_nodup_map hk hx hcmem (hxw.trans hcw.symm)))
      · intro hne hte
        have hxc := List.inj_on_of_nodup_map htn hx hcmem hte
        exact hne (by rw [hxc, hcw])
    · exact List.Nodup.sublist (List.Sublist.map _ (List.filter_sublist _)) hk
    · exact List.Nodup.sublist (List.Sublist.map _ (List.filter_sublist _)) htn
    · intro c' hc'
      exact hb c' (List.mem_of_mem_filter hc')

theorem accept_preserves_inv (s : ChannelState) (o fa : Bool) (h : ChanInv s) :
    ChanInv (acceptClient s o fa) := by
  obtain ⟨ht, hk, htn, hb⟩ := h
  by_cases hsd : s.shuttingDown
  · have hs : acceptClient s o fa = { s with nextWs := s.nextWs + 1 } := by
      unfold acceptClient
      rw [if_pos hsd]
    rw [hs]
    refine ⟨ht, hk, htn, ?_⟩
    intro c hc
    have hbc := hb c hc
    exact ⟨Nat.lt_succ_of_lt hbc.1, hbc.2⟩
  · have hs : acceptClient s o fa
        = { s with
            clients := s.clients ++ [(⟨s.nextWs, o, fa, s.nextTimer⟩ : Client)],
            timers := s.timers ++ [s.nextTimer],
            nextWs := s.nextWs + 1,
            nextTimer := s.nextTimer + 1 } := by
      unfold acceptClient
      rw [if_neg hsd]
    rw [hs]
    refine ⟨?_, ?_, ?_, ?_⟩
    · show s.timers ++ [s.nextTimer]
        = (s.clients ++ [(⟨s.nextWs, o, fa, s.nextTimer⟩ : Client)]).map Client.timerId
      rw [List.map_append, ht]
      rfl
    · show ((s.clients ++ [(⟨s.nextWs, o, fa, s.nextTimer⟩ : Client)]).map
        Client.wsId).Nodup
      rw [List.map_append, List.nodup_append]
      refine ⟨hk, List.nodup_singleton _, ?_⟩
      intro a ha hmem
      rw [List.map_singleton, List.mem_singleton] at hmem
      obtain ⟨c, hc, hca⟩ := List.mem_map.mp ha
      have hlt := (hb c hc).1
      rw [hca, hmem] at hlt
      exact Nat.lt_irrefl _ hlt
    · show ((s.clients ++ [(⟨s.nextWs, o, fa, s.nextTimer⟩ : Client)]).map
        Client.timerId).Nodup
      rw [List.map_append, List.nodup_append]
      refine ⟨htn, List.nodup_singleton _, ?_⟩
      intro a ha hmem
      rw [List.map_singleton, List.mem_singleton] at hmem
      obtain ⟨c, hc, hca⟩ := List.mem_map.mp ha
      have hlt := (hb c hc).2
      rw [hca, hmem] at hlt
      exact Nat.lt_irrefl _ hlt
    · intro c hc
      have hc' : c ∈ s.clients ++ [(⟨s.nextWs, o, fa, s.nextTimer⟩ : Client)] := hc
      rw [List.mem_append] at hc'
      rcases hc' with hc' | hc'
      · have hbc := hb c hc'
        exact ⟨Nat.lt_succ_of_lt hbc.1, Nat.lt_succ_of_lt hbc.2⟩
      · rw [List.mem_singleton] at hc'
        rw [hc']
        exact ⟨Nat.lt_succ_self _, Nat.lt_succ_self _⟩

theorem stop_preserves_inv (s : ChannelState) (h : ChanInv s) :
    ChanInv (stopChannel s) := by
  obtain ⟨ht, _, _, _⟩ := h
  refine ⟨?_, by simp [stopChannel], by simp [stopChannel], ?_⟩
  · show s.timers.filter (fun t => !(s.clients.map Client.timerId).contains t)
      = List.map Client.timerId []
    rw [List.map_nil, ht, List.filter_eq_nil_iff]
    intro a ha
    simp [ha]
  · intro c hc
    simp [stopChannel] at hc

theorem foldl_cleanup_preserves_inv :
    ∀ (d : List Client) (s : ChannelState), ChanInv s →
      ChanInv (d.foldl (fun st c => cleanupClient st c.wsId) s) := by
  intro d
  induction d with
  | nil => intro s h; exact h
  | cons x d ih =>
    intro s h
    exact ih _ (cleanup_preserves_inv s x.wsId h)

theorem notify_preserves_inv (s : ChannelState) (ty da : String) (ts : Nat)
    (h : ChanInv s) : ChanInv (notifyClients s ty da ts).1 := by
  unfold notifyClients
  by_cases hg : (s.shuttingDown || s.clients.isEmpty) = true
  · rw [if_pos hg]
    exact h
  · rw [if_neg hg]
    exact foldl_cleanup_preserves_inv _ s h

theorem runOps_inv : ∀ (ops : List ChanOp) (s : ChannelState),
    ChanInv s → ChanInv (runOps s ops) := by
  intro ops
  induction ops with
  | nil => intro s h; exact h
  | cons op ops ih =>
    intro s h
    show ChanInv (List.foldl applyOp s (op :: ops))
    rw [List.foldl_cons]
    have hstep : ChanInv (applyOp s op) := by
      cases op with
      | accept o f => exact accept_preserves_inv s o f h
      | closeEvt w => exact cleanup_preserves_inv s w h
      | errorEvt w => exact cleanup_preserves_inv s w h
      | broadcast ty da ts => exact notify_preserves_inv s ty da ts h
      | stop => exact stop_preserves_inv s h
    exact ih (applyOp s op) hstep

/-- Claim C10.  After any sequence of accept / close / error / broadcast /
stop operations the live heartbeat timers are exactly the registered
connections' ping timers (no timer outlives its connection); cleaning up
a socket that is not registered is a no-op; and cleaning up the same
socket twice is the same as cleaning it up once. -/
theorem heartbeat_timer_invariant (ops : List ChanOp) (s : ChannelState) (w : Nat)
    (hnf : s.clients.find? (fun c => c.wsId == w) = none) :
    (runOps initChannel ops).timers
      = (runOps initChannel ops).clients.map Client.timerId
    ∧ cleanupClient s w = s
    ∧ ∀ (s2 : ChannelState) (w2 : Nat),
        cleanupClient (cleanupClient s2 w2) w2 = cleanupClient s2 w2 := by
  refine ⟨?_, cleanupClient_not_found s w hnf, ?_⟩
  · have hinit : ChanInv initChannel := by
      refine ⟨rfl, List.nodup_nil, List.nodup_nil, ?_⟩
      intro c hc
      cases hc
    exact (runOps_inv ops initChannel hinit).1
  · intro s2 w2
    cases hf : s2.clients.find? (fun c => c.wsId == w2) with
    | none =>
      have h2 := cleanupClient_not_found s2 w2 hf
      rw [h2, h2]
    | some c =>
      have hnone : (cleanupClient s2 w2).clients.find? (fun c' => c'.wsId == w2)
          = none := by
        rw [cleanupClient_clients, List.find?_eq_none]
        intro x hx
        have hxf := (List.mem_filter.mp hx).2
        simp at hxf ⊢
        exact hxf
      exact cleanupClient_not_found _ w2 hnone

/-- Witness for `heartbeat_timer_invariant`. -/
theorem heartbeat_timer_invariant_witness :
    (runOps initChannel [ChanOp.accept true false, ChanOp.accept true true,
        ChanOp.closeEvt 0, ChanOp.broadcast "src-reload" "f" 3, ChanOp.stop]).timers
      = (runOps initChannel [ChanOp.accept true false, ChanOp.accept true true,
        ChanOp.closeEvt 0, ChanOp.broadcast "src-reload" "f" 3, ChanOp.stop]).clients.map
          Client.timerId
    ∧ cleanupClient ⟨[⟨0, true, false, 0⟩], [0], 1, 1, false⟩ 99
        = ⟨[⟨0, true, false, 0⟩], [0], 1, 1, false⟩
    ∧ cleanupClient (cleanupClient ⟨[⟨0, true, false, 0⟩], [0], 1, 1, false⟩ 0) 0
        = cleanupClient ⟨[⟨0, true, false, 0⟩], [0], 1, 1, false⟩ 0 := by
  have h := heartbeat_timer_invariant
    [ChanOp.accept true false, ChanOp.accept true true,
     ChanOp.closeEvt 0, ChanOp.broadcast "src-reload" "f" 3, ChanOp.stop]
    ⟨[⟨0, true, false, 0⟩], [0], 1, 1, false⟩ 99 rfl
  exact ⟨h.1, h.2.1, h.2.2 ⟨[⟨0, true, false, 0⟩], [0], 1, 1, false⟩ 0⟩

end HightJS
